import Mathlib

/-!
# Verification of the NBA end-to-end data-warehouse pipeline

Shallow embedding of the two source files of the repository:

* `dags/nba_pipeline_dag.py` — the Airflow DAG: extraction, load into the
  Snowflake staging table (including column-name sanitization), dbt transform,
  verification queries and the visualization readiness gate.
* `include/streamlit_app.py` — the dashboard: query building over the
  fact / advanced-fact left join, the top-performers leaderboard query.

Strings are modelled as `List Char` (the `data` of a Lean `String`); the
pandas `str.replace` chain is modelled by a literal, left-to-right,
non-overlapping replace-all function.  SQL numeric values are modelled as `ℚ`,
SQL `NULL` by `Option`.
-/

namespace NBA

/-! ## Column-name sanitization (`load_to_snowflake`, dag lines 74–77)

`df.columns.str.replace(' ', '_').str.replace('%', '_PCT').str.replace('/', '_')`
`df.columns.str.replace('3P', 'ThreeP').str.replace('2P', 'TwoP')`
`[col.replace('Unnamed: 0', 'Unnamed_0') for col in df.columns]`

Each `replace` is a literal (non-regex) replacement of every non-overlapping
occurrence, scanning left to right, exactly as Python's `str.replace`.
-/

/-- Replace every non-overlapping occurrence of `pat` by `rep`, scanning left
to right.  The `fuel` argument makes the recursion structural; it is always
called with `fuel ≥ s.length`, in which case the fuel never runs out. -/
def replFuel (pat rep : List Char) : Nat → List Char → List Char
  | 0, _ => []
  | _ + 1, [] => []
  | f + 1, c :: cs =>
    if List.take pat.length (c :: cs) = pat then
      rep ++ replFuel pat rep f (List.drop (pat.length - 1) cs)
    else
      c :: replFuel pat rep f cs

/-- Python's `str.replace pat rep` on a string modelled as `List Char`. -/
def replaceAll (pat rep s : List Char) : List Char :=
  replFuel pat rep s.length s

/-- Returns `true` iff `pat` occurs as a contiguous substring of `s`
(always `false` for the empty string `s`). -/
def hasPat (pat : List Char) : List Char → Bool
  | [] => false
  | c :: cs => decide (List.take pat.length (c :: cs) = pat) || hasPat pat cs

/-! The column-name cleaning of `load_to_snowflake` (dag lines 74–77) is a
chain of six literal replacements; one stage per `replace` call, in source
order. -/

/-- Source: `.str.replace(' ', '_')`. -/
def sanStage1 (s : List Char) : List Char :=
  replaceAll [' '] ['_'] s

/-- Source: `.str.replace('%', '_PCT')`. -/
def sanStage2 (s : List Char) : List Char :=
  replaceAll ['%'] ['_', 'P', 'C', 'T'] (sanStage1 s)

/-- Source: `.str.replace('/', '_')`. -/
def sanStage3 (s : List Char) : List Char :=
  replaceAll ['/'] ['_'] (sanStage2 s)

/-- Source: `.str.replace('3P', 'ThreeP')`. -/
def sanStage4 (s : List Char) : List Char :=
  replaceAll ['3', 'P'] ['T', 'h', 'r', 'e', 'e', 'P'] (sanStage3 s)

/-- Source: `.str.replace('2P', 'TwoP')`. -/
def sanStage5 (s : List Char) : List Char :=
  replaceAll ['2', 'P'] ['T', 'w', 'o', 'P'] (sanStage4 s)

/-- The full column-name cleaning applied by `load_to_snowflake` (lines
74–77), ending with `col.replace('Unnamed: 0', 'Unnamed_0')`. -/
def sanitizeCols (s : List Char) : List Char :=
  replaceAll ['U', 'n', 'n', 'a', 'm', 'e', 'd', ':', ' ', '0']
    ['U', 'n', 'n', 'a', 'm', 'e', 'd', '_', '0'] (sanStage5 s)

/-- The column-name cleaning applied by `load_to_snowflake`, on `String`. -/
def sanitizeColumn (s : String) : String :=
  ⟨sanitizeCols s.data⟩

/-! ## DAG structure and scheduling (dag lines 15–19, 100–108, 251) -/

/-- The `default_args` dictionary of the DAG (lines 15–19). -/
structure DefaultArgs where
  owner : String
  retries : Nat
  retry_delay_minutes : Nat
deriving DecidableEq

def default_args : DefaultArgs :=
  ⟨"NBA Pipeline", 2, 5⟩

/-- The task ids declared in the DAG body. -/
inductive TaskId
  | extract_kaggle_data
  | load_to_snowflake
  | transform_with_dbt
  | verify_raw_data
  | print_raw_verification_results
  | verify_transformed_data
  | print_transformed_verification_results
  | verify_visualization_data
deriving DecidableEq, Repr

/-- The dependency chain of line 251:
`extract >> load >> transform >> verify_raw >> print_raw_results_task >>
 verify_transformed >> print_transformed_results_task >> verify_viz`. -/
def taskChain : List TaskId :=
  [TaskId.extract_kaggle_data, TaskId.load_to_snowflake,
   TaskId.transform_with_dbt, TaskId.verify_raw_data,
   TaskId.print_raw_verification_results, TaskId.verify_transformed_data,
   TaskId.print_transformed_verification_results,
   TaskId.verify_visualization_data]

/-- The dependency edges induced by the `>>` chain: consecutive pairs. -/
def dagEdges : List (TaskId × TaskId) :=
  taskChain.zip taskChain.tail

/-- Upstream (direct-predecessor) tasks of a task, read off the edges. -/
def predecessorsOf (t : TaskId) : List TaskId :=
  (dagEdges.filter (fun e => decide (e.2 = t))).map Prod.fst

/-- The keyword configuration of the `DAG(...)` constructor (lines 100–108). -/
structure DagConfig where
  name : String
  schedule : String
  catchup : Bool
  tags : List String
deriving DecidableEq

def nba_pipeline_dag : DagConfig :=
  ⟨"nba_pipeline_dag", "@daily", false,
   ["nba", "etl", "snowflake", "kaggle", "dbt", "streamlit"]⟩

/-! ## Fact tables (spec §3)

Modelled from the spec: the dbt models (`include/nba_dw_project`) that build
`fact_player_season` and `fact_player_season_advanced` are not among the
source files.  Per spec §3, each fact table has one row per player-season
with primary key `(season_year, player_name)` — hence non-null key columns —
basic per-game rate stats and descriptive attributes in the basic table, and
possibly-null advanced metrics in the advanced table. -/

/-- A row of `fact_player_season` (spec §3).  SQL numerics are modelled
as `ℚ`. -/
structure FactRow where
  season_year : Int
  player_name : String
  position : String
  team_code : String
  games_played : Int
  minutes_played : Int
  points_per_game : ℚ
  rebounds_per_game : ℚ
  assists_per_game : ℚ
  steals_per_game : ℚ
  blocks_per_game : ℚ
deriving DecidableEq

/-- A row of `fact_player_season_advanced` (spec §3); advanced metrics may
be null. -/
structure AdvRow where
  season_year : Int
  player_name : String
  PER : Option ℚ
  TS_PCT : Option ℚ
  WS : Option ℚ
  BPM : Option ℚ
  VORP : Option ℚ
deriving DecidableEq

/-- The primary key of a basic fact row. -/
def factKey (r : FactRow) : Int × String :=
  (r.season_year, r.player_name)

/-- The primary key of an advanced fact row. -/
def advKey (r : AdvRow) : Int × String :=
  (r.season_year, r.player_name)

/-! ## Visualization readiness gate (`verify_visualization_data`, dag 207–243) -/

/-- Query `SELECT COUNT(DISTINCT player_name) FROM fact_player_season`
(dag line 228). -/
def distinctPlayers (t : List FactRow) : Nat :=
  ((t.map FactRow.player_name).dedup).length

/-- Function `verify_visualization_data` (dag lines 207–243): queries the two fact
tables' row counts and the distinct-player count; if both row counts are
positive it prints the three numbers and returns `True`, otherwise it raises
`Exception("Visualization data not ready - tables are empty")`.  The
distinct-player count is printed but not tested by the `if`. -/
def verify_visualization_data (fact : List FactRow) (adv : List AdvRow) :
    Except String Bool :=
  if 0 < fact.length ∧ 0 < adv.length then Except.ok true
  else Except.error "Visualization data not ready - tables are empty"

/-! ## Bulk-load outcome (`load_to_snowflake`, dag lines 83–98) -/

/-- The tail of `load_to_snowflake`: the `(success, nchunks, nrows, _)`
quadruple reported by the external `write_pandas` bulk-load is destructured;
on reported success the task prints and returns normally, otherwise it
raises `Exception("Failed to load data to Snowflake")`. -/
def load_to_snowflake (writeResult : Bool × Nat × Nat) : Except String Unit :=
  if writeResult.1 then Except.ok ()
  else Except.error "Failed to load data to Snowflake"

/-! ## Extractor output path (`extract_kaggle_data`, dag lines 38–44) -/

/-- A `datetime.now()` value; Python datetimes carry microsecond
precision. -/
structure PyDateTime where
  year : Nat
  month : Nat
  day : Nat
  hour : Nat
  minute : Nat
  second : Nat
  microsecond : Nat
deriving DecidableEq

/-- A single decimal digit character. -/
def digitChar : Nat → Char
  | 0 => '0'
  | 1 => '1'
  | 2 => '2'
  | 3 => '3'
  | 4 => '4'
  | 5 => '5'
  | 6 => '6'
  | 7 => '7'
  | 8 => '8'
  | 9 => '9'
  | _ + 10 => '*'

/-- Two-digit zero-padded decimal field (strftime `%m`, `%d`, `%H`, `%M`,
`%S`). -/
def pad2 (n : Nat) : List Char :=
  [digitChar (n / 10), digitChar (n % 10)]

/-- Four-digit zero-padded decimal field (strftime `%Y`). -/
def pad4 (n : Nat) : List Char :=
  [digitChar (n / 1000), digitChar (n / 100 % 10), digitChar (n / 10 % 10),
   digitChar (n % 10)]

/-- Source: `timestamp = datetime.now().strftime("%Y%m%d_%H%M%S")` (dag line 39).
Microseconds do not appear in the format. -/
def strftimeTimestamp (t : PyDateTime) : List Char :=
  pad4 t.year ++ pad2 t.month ++ pad2 t.day ++ ['_'] ++ pad2 t.hour ++
    pad2 t.minute ++ pad2 t.second

/-- Source: `filename = f"/tmp/nba_stats_{timestamp}.csv"` (dag line 40), the value
returned by `extract_kaggle_data` (line 44). -/
def extract_filename (t : PyDateTime) : String :=
  ⟨"/tmp/nba_stats_".data ++ strftimeTimestamp t ++ ".csv".data⟩

/-- Field bounds needed for the fixed-width decimal rendering; every value
`datetime.now()` can produce satisfies them. -/
def ValidTime (t : PyDateTime) : Prop :=
  t.year < 10000 ∧ t.month < 100 ∧ t.day < 100 ∧ t.hour < 100 ∧
    t.minute < 100 ∧ t.second < 100 ∧ t.microsecond < 1000000

/-- The run start time truncated to whole seconds, which is all that
`strftime("%Y%m%d_%H%M%S")` keeps. -/
def truncSeconds (t : PyDateTime) : PyDateTime :=
  ⟨t.year, t.month, t.day, t.hour, t.minute, t.second, 0⟩

/-! ## Dashboard queries (`streamlit_app.py`) -/

/-- A row produced by the SELECT list of `build_query` (app lines 131–154):
basic fact columns plus the five advanced metrics, null when the left join
finds no advanced row (or the stored metric is null). -/
structure JoinedRow where
  season_year : Int
  player_name : String
  position : String
  team_code : String
  games_played : Int
  minutes_played : Int
  points_per_game : ℚ
  rebounds_per_game : ℚ
  assists_per_game : ℚ
  steals_per_game : ℚ
  blocks_per_game : ℚ
  player_efficiency_rating : Option ℚ
  true_shooting_pct : Option ℚ
  win_shares : Option ℚ
  box_plus_minus : Option ℚ
  value_over_replacement_player : Option ℚ
deriving DecidableEq

/-- Build one joined row from a basic row and its (possibly absent) advanced
match. -/
def joinRows (f : FactRow) (a : Option AdvRow) : JoinedRow :=
  ⟨f.season_year, f.player_name, f.position, f.team_code, f.games_played,
   f.minutes_played, f.points_per_game, f.rebounds_per_game,
   f.assists_per_game, f.steals_per_game, f.blocks_per_game,
   (a.map AdvRow.PER).join, (a.map AdvRow.TS_PCT).join,
   (a.map AdvRow.WS).join, (a.map AdvRow.BPM).join,
   (a.map AdvRow.VORP).join⟩

/-- Source: `FROM fact_player_season f LEFT JOIN fact_player_season_advanced a ON
f.season_year = a.season_year AND f.player_name = a.player_name`
(app lines 149–152): every basic row joined with each matching advanced row,
or with nulls when no advanced row matches. -/
def leftJoin (fact : List FactRow) (adv : List AdvRow) : List JoinedRow :=
  fact.flatMap (fun f =>
    match adv.filter (fun a =>
        decide (a.season_year = f.season_year ∧ a.player_name = f.player_name)) with
    | [] => [joinRows f none]
    | m :: ms => (m :: ms).map (fun a => joinRows f (some a)))

/-- Source: `ORDER BY f.season_year DESC, f.points_per_game DESC` (app line 162):
row `x` may be placed before row `y`. -/
def overviewOrder (x y : JoinedRow) : Prop :=
  y.season_year < x.season_year ∨
    (x.season_year = y.season_year ∧ y.points_per_game ≤ x.points_per_game)

instance : DecidableRel overviewOrder := fun x y => by
  unfold overviewOrder; infer_instance

instance : IsTotal JoinedRow overviewOrder :=
  ⟨by
    intro a b
    unfold overviewOrder
    rcases lt_trichotomy a.season_year b.season_year with h | h | h
    · exact Or.inr (Or.inl h)
    · rcases le_total a.points_per_game b.points_per_game with hp | hp
      · exact Or.inr (Or.inr ⟨h.symm, hp⟩)
      · exact Or.inl (Or.inr ⟨h, hp⟩)
    · exact Or.inl (Or.inl h)⟩

instance : IsTrans JoinedRow overviewOrder :=
  ⟨by
    intro a b c hab hbc
    unfold overviewOrder at hab hbc ⊢
    rcases hab with h1 | ⟨h1, h1p⟩ <;> rcases hbc with h2 | ⟨h2, h2p⟩
    · exact Or.inl (h2.trans h1)
    · exact Or.inl (h2 ▸ h1)
    · exact Or.inl (h1 ▸ h2)
    · exact Or.inr ⟨h1.trans h2, h2p.trans h1p⟩⟩

/-- The WHERE clause built by `build_query` (app lines 153–160): `1=1` plus
an exact-match season conjunct when a season is selected and an exact-match
player conjunct when a player is selected. -/
def passesFilters (seasonF : Option Int) (playerF : Option String)
    (r : JoinedRow) : Bool :=
  (match seasonF with
   | none => true
   | some s => decide (r.season_year = s)) &&
  (match playerF with
   | none => true
   | some p => decide (r.player_name = p))

/-- The result set of the query built by `build_query` (app lines 129–164):
left join, optional filters, `ORDER BY f.season_year DESC,
f.points_per_game DESC`. -/
def runOverviewQuery (seasonF : Option Int) (playerF : Option String)
    (fact : List FactRow) (adv : List AdvRow) : List JoinedRow :=
  List.insertionSort overviewOrder
    ((leftJoin fact adv).filter (passesFilters seasonF playerF))

/-- A row of the tab-3 top-performers SELECT list (app lines 352–360). -/
structure TopRow where
  player_name : String
  season_year : Int
  points_per_game : ℚ
  rebounds_per_game : ℚ
  assists_per_game : ℚ
  player_efficiency_rating : Option ℚ
  win_shares : Option ℚ
  value_over_replacement_player : Option ℚ
deriving DecidableEq

/-- Projection of a joined row onto the tab-3 SELECT list. -/
def toTopRow (r : JoinedRow) : TopRow :=
  ⟨r.player_name, r.season_year, r.points_per_game, r.rebounds_per_game,
   r.assists_per_game, r.player_efficiency_rating, r.win_shares,
   r.value_over_replacement_player⟩

/-- The sort key used by `ORDER BY value_over_replacement_player DESC`
(app line 365) with Snowflake's default null ordering for descending sorts:
nulls sort as if greater than every value, hence first. -/
def vorpVal (x : Option ℚ) : WithTop ℚ :=
  x.elim ⊤ (fun q => (q : WithTop ℚ))

/-- The tab-3 ordering on projected rows: `x` may be placed before `y`. -/
def vorpOrder (x y : TopRow) : Prop :=
  vorpVal y.value_over_replacement_player ≤
    vorpVal x.value_over_replacement_player

instance : DecidableRel vorpOrder := fun x y => by
  unfold vorpOrder; infer_instance

instance : IsTotal TopRow vorpOrder :=
  ⟨fun _ _ => le_total _ _⟩

instance : IsTrans TopRow vorpOrder :=
  ⟨fun _ _ _ h1 h2 => le_trans h2 h1⟩

/-- The tab-3 top-performers query (app lines 351–367): left join,
projection, `ORDER BY value_over_replacement_player DESC LIMIT 20`. -/
def topPerformersQuery (fact : List FactRow) (adv : List AdvRow) :
    List TopRow :=
  (List.insertionSort vorpOrder ((leftJoin fact adv).map toTopRow)).take 20

/-! ## Orchestrator execution (spec §4.5, §6)

Modelled from the spec: Airflow's scheduler, retry loop and trigger rule
evaluation are external to the repository; only their configuration
(`default_args`, the `DAG(...)` kwargs and the `>>` chain) is source code.
Per spec §4.5 a task is attempted up to `retries + 1` times with a fixed
delay between attempts; exhausting the budget marks the run failed and
halts all downstream tasks. -/

/-- Modelled from the spec (§4.5): number of attempts a task consumes given
per-attempt outcomes and a retry budget — it stops at the first success and
never exceeds `retryBudget + 1` attempts. -/
def attemptsTaken (outcome : Nat → Bool) (retryBudget : Nat) : Nat :=
  match (List.range (retryBudget + 1)).findIdx? (fun i => outcome i) with
  | some i => i + 1
  | none => retryBudget + 1

/-- Modelled from the spec (§4.5): whether the task succeeds within its
retry budget. -/
def taskSucceeds (outcome : Nat → Bool) (retryBudget : Nat) : Bool :=
  (List.range (retryBudget + 1)).any (fun i => outcome i)

/-- Modelled from the spec (§4.5, §6): attempt start times in minutes
relative to the first attempt, spaced by the configured retry delay. -/
def attemptStartTimes (outcome : Nat → Bool) (retryBudget delayMinutes : Nat) :
    List Nat :=
  (List.range (attemptsTaken outcome retryBudget)).map (fun i => i * delayMinutes)

/-- Modelled from the spec (§4.5): run the task chain in order; a task whose
retry budget is exhausted marks the run failed and halts downstream tasks.
Returns the invoked tasks and whether the run succeeded. -/
def runChain (outcomes : TaskId → Nat → Bool) (retryBudget : Nat) :
    List TaskId → List TaskId × Bool
  | [] => ([], true)
  | t :: ts =>
    if taskSucceeds (outcomes t) retryBudget then
      (t :: (runChain outcomes retryBudget ts).1,
       (runChain outcomes retryBudget ts).2)
    else ([t], false)

/-- One pipeline run with the configured retry budget over the DAG's task
chain. -/
def runPipeline (outcomes : TaskId → Nat → Bool) : List TaskId × Bool :=
  runChain outcomes default_args.retries taskChain

/-- Failure injection for the extraction task: every extraction attempt
fails, every other task succeeds on its first attempt. -/
def extractAlwaysFails (t : TaskId) (_ : Nat) : Bool :=
  decide (t ≠ TaskId.extract_kaggle_data)

/-! ## Concrete fixtures used by witnesses -/

def factLebron : FactRow :=
  ⟨2017, "LeBron James", "SF", "CLE", 74, 2794, 26, 8, 8, 1, 1⟩

def advLebron : AdvRow :=
  ⟨2017, "LeBron James", some 27, some 1, some 12, some 8, some 7⟩

def factTable1 : List FactRow := [factLebron]

def advTable1 : List AdvRow := [advLebron]

/-- A fact row whose player name is arbitrary but non-null, used to
exercise the readiness gate. -/
def factRowA : FactRow :=
  ⟨2000, "A", "C", "BOS", 1, 1, 0, 0, 0, 0, 0⟩

def advRowA : AdvRow :=
  ⟨2000, "A", none, none, none, none, none⟩

end NBA

namespace NBA

/-! ## Lemmas about literal replacement -/

theorem replFuel_nil (pat rep : List Char) (f : Nat) :
    replFuel pat rep f [] = [] := by
  cases f <;> rfl

/-- Characters of the output of a replacement come from the input or from
the replacement text. -/
theorem mem_of_mem_replFuel {pat rep : List Char} {c : Char} :
    ∀ {f : Nat} {s : List Char}, s.length ≤ f → c ∈ replFuel pat rep f s →
      c ∈ s ∨ c ∈ rep := by
  intro f
  induction f with
  | zero =>
    intro s hle hmem
    rw [List.eq_nil_of_length_eq_zero (Nat.le_zero.mp hle)] at hmem
    simp [replFuel] at hmem
  | succ f ih =>
    intro s hle hmem
    cases s with
    | nil => simp [replFuel] at hmem
    | cons x xs =>
      simp only [List.length_cons] at hle
      simp only [replFuel] at hmem
      by_cases h : List.take pat.length (x :: xs) = pat
      · rw [if_pos h] at hmem
        rcases List.mem_append.mp hmem with hr | hm
        · exact Or.inr hr
        · have hlen : (List.drop (pat.length - 1) xs).length ≤ f := by
            rw [List.length_drop]; omega
          rcases ih hlen hm with hs | hr
          · exact Or.inl (List.mem_cons_of_mem x (List.drop_subset _ _ hs))
          · exact Or.inr hr
      · rw [if_neg h] at hmem
        rcases List.mem_cons.mp hmem with rfl | hm
        · exact Or.inl (List.mem_cons_self _ _)
        · have hlen : xs.length ≤ f := by omega
          rcases ih hlen hm with hs | hr
          · exact Or.inl (List.mem_cons_of_mem x hs)
          · exact Or.inr hr

/-- Replacing a single character eliminates it, provided the replacement
text avoids it. -/
theorem not_mem_replFuel_single {a : Char} {rep : List Char} (ha : a ∉ rep) :
    ∀ (f : Nat) (s : List Char), s.length ≤ f → a ∉ replFuel [a] rep f s := by
  intro f
  induction f with
  | zero =>
    intro s hle
    rw [List.eq_nil_of_length_eq_zero (Nat.le_zero.mp hle)]
    simp [replFuel]
  | succ f ih =>
    intro s hle
    cases s with
    | nil => simp [replFuel]
    | cons x xs =>
      simp only [List.length_cons] at hle
      have hxs : xs.length ≤ f := by omega
      simp only [replFuel]
      by_cases h : List.take ([a].length) (x :: xs) = [a]
      · rw [if_pos h]
        intro hmem
        rcases List.mem_append.mp hmem with hr | hm
        · exact ha hr
        · have hdrop : List.drop ([a].length - 1) xs = xs := by simp
          rw [hdrop] at hm
          exact ih xs hxs hm
      · rw [if_neg h]
        intro hmem
        rcases List.mem_cons.mp hmem with heq | hm
        · exact h (by simp [heq.symm])
        · exact ih xs hxs hm

/-- A replacement whose pattern does not occur is the identity. -/
theorem replFuel_eq_self_of_not_hasPat {pat rep : List Char} :
    ∀ (f : Nat) (s : List Char), s.length ≤ f → hasPat pat s = false →
      replFuel pat rep f s = s := by
  intro f
  induction f with
  | zero =>
    intro s hle _
    rw [List.eq_nil_of_length_eq_zero (Nat.le_zero.mp hle)]
    rfl
  | succ f ih =>
    intro s hle hnp
    cases s with
    | nil => rfl
    | cons x xs =>
      simp only [List.length_cons] at hle
      simp only [hasPat, Bool.or_eq_false_iff, decide_eq_false_iff_not] at hnp
      simp only [replFuel, if_neg hnp.1]
      rw [ih xs (by omega) hnp.2]

theorem hasPat_of_cons {pat : List Char} {x : Char} {xs : List Char}
    (h : hasPat pat (x :: xs) = false) : hasPat pat xs = false := by
  simp only [hasPat, Bool.or_eq_false_iff] at h
  exact h.2

/-- Occurrence of a single-character pattern is membership. -/
theorem hasPat_single_eq_false {a : Char} :
    ∀ {s : List Char}, hasPat [a] s = false ↔ a ∉ s := by
  intro s
  induction s with
  | nil => simp [hasPat]
  | cons x xs ih =>
    simp only [hasPat, Bool.or_eq_false_iff, decide_eq_false_iff_not, ih,
      List.mem_cons]
    constructor
    · rintro ⟨h1, h2⟩ (rfl | hm)
      · exact h1 (by simp)
      · exact h2 hm
    · intro h
      refine ⟨fun ht => ?_, fun hm => h (Or.inr hm)⟩
      have hx : x = a := by simpa using ht
      exact h (Or.inl hx.symm)

/-- A pattern containing a character absent from the string cannot occur. -/
theorem hasPat_eq_false_of_not_mem {pat : List Char} {c : Char} (hc : c ∈ pat) :
    ∀ {s : List Char}, c ∉ s → hasPat pat s = false := by
  intro s
  induction s with
  | nil => intro _; rfl
  | cons x xs ih =>
    intro hs
    simp only [hasPat, Bool.or_eq_false_iff, decide_eq_false_iff_not]
    refine ⟨fun ht => ?_, ih (fun hm => hs (List.mem_cons_of_mem _ hm))⟩
    have hmem : c ∈ List.take pat.length (x :: xs) := by rw [ht]; exact hc
    exact hs (List.take_subset _ _ hmem)

/-- Prefix test for a two-character pattern. -/
theorem take_pat2 {a b x : Char} {xs : List Char} :
    List.take ([a, b].length) (x :: xs) = [a, b] ↔
      x = a ∧ xs.head? = some b := by
  cases xs with
  | nil => simp [List.take]
  | cons y ys => simp [List.take]

/-- The head of a replacement output comes from the replacement text or from
the input. -/
theorem head?_replFuel {pat rep : List Char} (hne : rep ≠ []) {f : Nat}
    {s : List Char} {u : Char}
    (h : (replFuel pat rep f s).head? = some u) :
    rep.head? = some u ∨ s.head? = some u := by
  cases f with
  | zero => simp [replFuel] at h
  | succ f =>
    cases s with
    | nil => simp [replFuel] at h
    | cons x xs =>
      simp only [replFuel] at h
      by_cases hc : List.take pat.length (x :: xs) = pat
      · rw [if_pos hc] at h
        cases rep with
        | nil => exact absurd rfl hne
        | cons r rs =>
          simp only [List.cons_append, List.head?_cons] at h
          exact Or.inl (by simp [h])
      · rw [if_neg hc] at h
        simp only [List.head?_cons] at h ⊢
        exact Or.inr h

/-- Occurrence of a two-character pattern in an append decomposes into
occurrence in either part or a straddling occurrence at the seam. -/
theorem hasPat_two_append {a b : Char} :
    ∀ {xs : List Char} (ys : List Char), hasPat [a, b] xs = false →
      hasPat [a, b] ys = false →
      ¬(xs.getLast? = some a ∧ ys.head? = some b) →
      hasPat [a, b] (xs ++ ys) = false := by
  intro xs
  induction xs with
  | nil =>
    intro ys _ h2 _
    simpa using h2
  | cons x xs ih =>
    intro ys h1 h2 h3
    have h1x : hasPat [a, b] xs = false := hasPat_of_cons h1
    simp only [List.cons_append, hasPat, Bool.or_eq_false_iff,
      decide_eq_false_iff_not]
    constructor
    · intro ht
      rw [take_pat2] at ht
      obtain ⟨hxa, hh⟩ := ht
      cases xs with
      | nil =>
        exact h3 ⟨by simp [hxa], by simpa using hh⟩
      | cons z zs =>
        have hz : z = b := by simpa using hh
        simp only [hasPat, Bool.or_eq_false_iff,
          decide_eq_false_iff_not] at h1
        exact h1.1 (take_pat2.mpr ⟨hxa, by simp [hz]⟩)
    · apply ih ys h1x h2
      rintro ⟨hga, hhb⟩
      cases xs with
      | nil => simp at hga
      | cons z zs =>
        exact h3 ⟨by rw [List.getLast?_cons_cons]; exact hga, hhb⟩

/-- Replacing a two-character pattern eliminates all its occurrences,
provided the replacement text contains none and cannot form one at a seam. -/
theorem hasPat_replFuel_self {a b : Char} {rep : List Char}
    (hR : hasPat [a, b] rep = false) (hne : rep ≠ [])
    (hLast : rep.getLast? ≠ some a) (hHead : rep.head? ≠ some b) :
    ∀ (f : Nat) (s : List Char), s.length ≤ f →
      hasPat [a, b] (replFuel [a, b] rep f s) = false := by
  intro f
  induction f with
  | zero =>
    intro s hle
    rw [List.eq_nil_of_length_eq_zero (Nat.le_zero.mp hle)]
    rfl
  | succ f ih =>
    intro s hle
    cases s with
    | nil => rfl
    | cons x xs =>
      simp only [List.length_cons] at hle
      have hxs : xs.length ≤ f := by omega
      by_cases hc : List.take ([a, b].length) (x :: xs) = [a, b]
      · obtain ⟨hxa, hh⟩ := take_pat2.mp hc
        cases xs with
        | nil => simp at hh
        | cons y ys =>
          simp only [List.length_cons] at hle
          simp only [replFuel, if_pos hc]
          have hdrop : List.drop ([a, b].length - 1) (y :: ys) = ys := by simp
          rw [hdrop]
          apply hasPat_two_append _ hR (ih ys (by omega))
          rintro ⟨hga, _⟩
          exact hLast hga
      · simp only [replFuel, if_neg hc]
        simp only [hasPat, Bool.or_eq_false_iff, decide_eq_false_iff_not]
        refine ⟨fun ht => ?_, ih xs hxs⟩
        obtain ⟨hxa, hh⟩ := take_pat2.mp ht
        rcases head?_replFuel hne hh with hrb | hxb
        · exact hHead hrb
        · exact hc (take_pat2.mpr ⟨hxa, hxb⟩)

/-- Replacing one two-character pattern does not create occurrences of
another two-character pattern, under the same seam conditions. -/
theorem hasPat_replFuel_other {a b c d : Char} {rep : List Char}
    (hR : hasPat [a, b] rep = false) (hne : rep ≠ [])
    (hLast : rep.getLast? ≠ some a) (hHead : rep.head? ≠ some b) :
    ∀ (f : Nat) (s : List Char), s.length ≤ f → hasPat [a, b] s = false →
      hasPat [a, b] (replFuel [c, d] rep f s) = false := by
  intro f
  induction f with
  | zero =>
    intro s hle _
    rw [List.eq_nil_of_length_eq_zero (Nat.le_zero.mp hle)]
    rfl
  | succ f ih =>
    intro s hle hS
    cases s with
    | nil => rfl
    | cons x xs =>
      simp only [List.length_cons] at hle
      have hxs : xs.length ≤ f := by omega
      have hSx : hasPat [a, b] xs = false := hasPat_of_cons hS
      by_cases hc : List.take ([c, d].length) (x :: xs) = [c, d]
      · obtain ⟨hxc, hh⟩ := take_pat2.mp hc
        cases xs with
        | nil => simp at hh
        | cons y ys =>
          simp only [List.length_cons] at hle
          simp only [replFuel, if_pos hc]
          have hdrop : List.drop ([c, d].length - 1) (y :: ys) = ys := by simp
          rw [hdrop]
          apply hasPat_two_append _ hR
            (ih ys (by omega) (hasPat_of_cons hSx))
          rintro ⟨hga, _⟩
          exact hLast hga
      · simp only [replFuel, if_neg hc]
        simp only [hasPat, Bool.or_eq_false_iff, decide_eq_false_iff_not]
        refine ⟨fun ht => ?_, ih xs hxs hSx⟩
        obtain ⟨hxa, hh⟩ := take_pat2.mp ht
        rcases head?_replFuel hne hh with hrb | hxb
        · exact hHead hrb
        · simp only [hasPat, Bool.or_eq_false_iff,
            decide_eq_false_iff_not] at hS
          exact hS.1 (take_pat2.mpr ⟨hxa, hxb⟩)

/-! Wrappers at the `replaceAll` level. -/

theorem mem_replaceAll {pat rep s : List Char} {c : Char}
    (h : c ∈ replaceAll pat rep s) : c ∈ s ∨ c ∈ rep :=
  mem_of_mem_replFuel (le_refl _) h

theorem not_mem_replaceAll_single {a : Char} {rep : List Char}
    (ha : a ∉ rep) (s : List Char) : a ∉ replaceAll [a] rep s :=
  not_mem_replFuel_single ha _ _ (le_refl _)

theorem not_mem_replaceAll {pat rep s : List Char} {c : Char}
    (hs : c ∉ s) (hr : c ∉ rep) : c ∉ replaceAll pat rep s :=
  fun h => (mem_replaceAll h).elim hs hr

theorem replaceAll_eq_self {pat rep s : List Char}
    (h : hasPat pat s = false) : replaceAll pat rep s = s :=
  replFuel_eq_self_of_not_hasPat _ _ (le_refl _) h

theorem hasPat_replaceAll_self {a b : Char} {rep : List Char}
    (hR : hasPat [a, b] rep = false) (hne : rep ≠ [])
    (hLast : rep.getLast? ≠ some a) (hHead : rep.head? ≠ some b)
    (s : List Char) :
    hasPat [a, b] (replaceAll [a, b] rep s) = false :=
  hasPat_replFuel_self hR hne hLast hHead _ _ (le_refl _)

theorem hasPat_replaceAll_other {a b c d : Char} {rep : List Char}
    (hR : hasPat [a, b] rep = false) (hne : rep ≠ [])
    (hLast : rep.getLast? ≠ some a) (hHead : rep.head? ≠ some b)
    {s : List Char} (hs : hasPat [a, b] s = false) :
    hasPat [a, b] (replaceAll [c, d] rep s) = false :=
  hasPat_replFuel_other hR hne hLast hHead _ _ (le_refl _) hs

/-! ## Properties of the sanitization stages -/

theorem space_not_mem_sanStage5 (s : List Char) : ' ' ∉ sanStage5 s :=
  not_mem_replaceAll
    (not_mem_replaceAll
      (not_mem_replaceAll
        (not_mem_replaceAll
          (not_mem_replaceAll_single (by decide) s) (by decide))
        (by decide))
      (by decide))
    (by decide)

theorem pct_not_mem_sanStage5 (s : List Char) : '%' ∉ sanStage5 s :=
  not_mem_replaceAll
    (not_mem_replaceAll
      (not_mem_replaceAll
        (not_mem_replaceAll_single (by decide) (sanStage1 s)) (by decide))
      (by decide))
    (by decide)

theorem slash_not_mem_sanStage5 (s : List Char) : '/' ∉ sanStage5 s :=
  not_mem_replaceAll
    (not_mem_replaceAll
      (not_mem_replaceAll_single (by decide) (sanStage2 s)) (by decide))
    (by decide)

theorem threeP_not_hasPat_sanStage5 (s : List Char) :
    hasPat ['3', 'P'] (sanStage5 s) = false :=
  hasPat_replaceAll_other (by decide) (by decide) (by decide) (by decide)
    (hasPat_replaceAll_self (by decide) (by decide) (by decide) (by decide)
      (sanStage3 s))

theorem twoP_not_hasPat_sanStage5 (s : List Char) :
    hasPat ['2', 'P'] (sanStage5 s) = false :=
  hasPat_replaceAll_self (by decide) (by decide) (by decide) (by decide)
    (sanStage4 s)

/-- The final `Unnamed: 0` replacement never fires: its pattern contains a
space and stage 5 output contains none. -/
theorem sanitizeCols_eq_sanStage5 (s : List Char) :
    sanitizeCols s = sanStage5 s :=
  replaceAll_eq_self
    (hasPat_eq_false_of_not_mem (by decide) (space_not_mem_sanStage5 s))

theorem space_not_mem_sanitizeCols (s : List Char) : ' ' ∉ sanitizeCols s :=
  (sanitizeCols_eq_sanStage5 s) ▸ space_not_mem_sanStage5 s

theorem pct_not_mem_sanitizeCols (s : List Char) : '%' ∉ sanitizeCols s :=
  (sanitizeCols_eq_sanStage5 s) ▸ pct_not_mem_sanStage5 s

theorem slash_not_mem_sanitizeCols (s : List Char) : '/' ∉ sanitizeCols s :=
  (sanitizeCols_eq_sanStage5 s) ▸ slash_not_mem_sanStage5 s

/-- Applying the whole sanitization chain a second time changes nothing. -/
theorem sanitizeCols_idem (s : List Char) :
    sanitizeCols (sanitizeCols s) = sanitizeCols s := by
  have hsp : ' ' ∉ sanitizeCols s := space_not_mem_sanitizeCols s
  have hpc : '%' ∉ sanitizeCols s := pct_not_mem_sanitizeCols s
  have hsl : '/' ∉ sanitizeCols s := slash_not_mem_sanitizeCols s
  have h3p : hasPat ['3', 'P'] (sanitizeCols s) = false :=
    (sanitizeCols_eq_sanStage5 s) ▸ threeP_not_hasPat_sanStage5 s
  have h2p : hasPat ['2', 'P'] (sanitizeCols s) = false :=
    (sanitizeCols_eq_sanStage5 s) ▸ twoP_not_hasPat_sanStage5 s
  set t := sanitizeCols s with ht
  have e1 : sanStage1 t = t :=
    replaceAll_eq_self (hasPat_single_eq_false.mpr hsp)
  have e2 : sanStage2 t = t := by
    unfold sanStage2
    rw [e1]
    exact replaceAll_eq_self (hasPat_single_eq_false.mpr hpc)
  have e3 : sanStage3 t = t := by
    unfold sanStage3
    rw [e2]
    exact replaceAll_eq_self (hasPat_single_eq_false.mpr hsl)
  have e4 : sanStage4 t = t := by
    unfold sanStage4
    rw [e3]
    exact replaceAll_eq_self h3p
  have e5 : sanStage5 t = t := by
    unfold sanStage5
    rw [e4]
    exact replaceAll_eq_self h2p
  show sanitizeCols t = t
  unfold sanitizeCols
  rw [e5]
  exact replaceAll_eq_self (hasPat_eq_false_of_not_mem (by decide) hsp)

/-! ## Claim theorems about the sanitization -/

/-- C3: the loader's column-name sanitization is idempotent — applying it
twice to any column name yields the same result as applying it once. -/
theorem sanitizeColumn_idempotent (s : String) :
    sanitizeColumn (sanitizeColumn s) = sanitizeColumn s :=
  congrArg String.mk (sanitizeCols_idem s.data)

theorem sanitizeColumn_idempotent_witness :
    sanitizeColumn (sanitizeColumn "FG%") = sanitizeColumn "FG%" :=
  sanitizeColumn_idempotent "FG%"

/-- C4: no sanitized column name contains a space, a percent sign or a
slash. -/
theorem sanitizeColumn_no_forbidden_chars (s : String) :
    ' ' ∉ (sanitizeColumn s).data ∧ '%' ∉ (sanitizeColumn s).data ∧
      '/' ∉ (sanitizeColumn s).data :=
  ⟨space_not_mem_sanitizeCols s.data, pct_not_mem_sanitizeCols s.data,
   slash_not_mem_sanitizeCols s.data⟩

theorem sanitizeColumn_no_forbidden_chars_witness :
    ' ' ∉ (sanitizeColumn "TRB A/B").data ∧
      '%' ∉ (sanitizeColumn "TRB A/B").data ∧
      '/' ∉ (sanitizeColumn "TRB A/B").data :=
  sanitizeColumn_no_forbidden_chars "TRB A/B"

/-- C10: the sanitization is not injective — the distinct source column
names `"a b"` and `"a_b"` both sanitize to `"a_b"`, so two distinct source
columns can collide into one staging-table column. -/
theorem sanitizeColumn_not_injective :
    sanitizeColumn "a b" = sanitizeColumn "a_b" ∧ "a b" ≠ "a_b" :=
  ⟨by decide, by decide⟩

/-! ## The visualization readiness gate (C1) -/

/-- C1: the readiness check returns `True` exactly when both fact tables
have positive row counts and the distinct-player count is positive, and in
every other case it raises the fatal readiness error.  Because
`(season_year, player_name)` is the fact table's primary key, `player_name`
is non-null, so the distinct-player count is positive exactly when the fact
table is nonempty; the `if` on the two row counts therefore realizes the
three-part condition. -/
theorem verify_visualization_data_gate (fact : List FactRow)
    (adv : List AdvRow) :
    (verify_visualization_data fact adv = Except.ok true ↔
      (0 < fact.length ∧ 0 < adv.length ∧ 0 < distinctPlayers fact)) ∧
    (¬(0 < fact.length ∧ 0 < adv.length ∧ 0 < distinctPlayers fact) →
      verify_visualization_data fact adv =
        Except.error "Visualization data not ready - tables are empty") := by
  have hd : 0 < fact.length → 0 < distinctPlayers fact := by
    intro h
    unfold distinctPlayers
    rw [List.length_pos] at h ⊢
    intro he
    rw [List.dedup_eq_nil] at he
    exact h (List.map_eq_nil_iff.mp he)
  unfold verify_visualization_data
  by_cases hc : 0 < fact.length ∧ 0 < adv.length
  · rw [if_pos hc]
    exact ⟨⟨fun _ => ⟨hc.1, hc.2, hd hc.1⟩, fun _ => rfl⟩,
           fun hcon => absurd ⟨hc.1, hc.2, hd hc.1⟩ hcon⟩
  · rw [if_neg hc]
    exact ⟨⟨fun h => Except.noConfusion h, fun h3 => absurd ⟨h3.1, h3.2.1⟩ hc⟩,
           fun _ => rfl⟩

theorem verify_visualization_data_gate_witness :
    verify_visualization_data factTable1 advTable1 = Except.ok true :=
  (verify_visualization_data_gate factTable1 advTable1).1.mpr (by decide)

/-! ## DAG shape and scheduling (C2) -/

/-- C2, counterexample to the claim as stated: the dependency chain of line
251 has eight tasks, not six, and its first task has no predecessor. -/
theorem taskChain_not_six_tasks :
    taskChain.length ≠ 6 ∧
      predecessorsOf TaskId.extract_kaggle_data = [] := by
  decide

/-- C2, amended: a pipeline run is one full left-to-right traversal of an
eight-task linear chain in which every task except the first has exactly one
predecessor (the preceding task) and the first has none, scheduled daily
with no catch-up of missed runs. -/
theorem taskChain_linear_eight :
    taskChain.length = 8 ∧
    taskChain.map predecessorsOf =
      [[], [TaskId.extract_kaggle_data], [TaskId.load_to_snowflake],
       [TaskId.transform_with_dbt], [TaskId.verify_raw_data],
       [TaskId.print_raw_verification_results],
       [TaskId.verify_transformed_data],
       [TaskId.print_transformed_verification_results]] ∧
    runPipeline (fun _ _ => true) = (taskChain, true) ∧
    nba_pipeline_dag.schedule = "@daily" ∧
    nba_pipeline_dag.catchup = false := by
  decide

/-! ## Retry policy on extraction failure (C5) -/

/-- C5: with the configured `default_args` (retry budget 2, delay 5
minutes), a permanently failing extraction is attempted three times —
the initial attempt plus exactly two retries — at 0, 5 and 10 minutes;
the run is then marked failed and the loader task is never invoked. -/
theorem extraction_failure_retry_behavior :
    default_args.retries = 2 ∧
    default_args.retry_delay_minutes = 5 ∧
    attemptsTaken (extractAlwaysFails TaskId.extract_kaggle_data)
      default_args.retries = 1 + default_args.retries ∧
    attemptStartTimes (extractAlwaysFails TaskId.extract_kaggle_data)
      default_args.retries default_args.retry_delay_minutes = [0, 5, 10] ∧
    runPipeline extractAlwaysFails = ([TaskId.extract_kaggle_data], false) ∧
    TaskId.load_to_snowflake ∉ (runPipeline extractAlwaysFails).1 := by
  decide

/-! ## Bulk-load failure handling (C8) -/

/-- C8: if the `write_pandas` bulk-load reports failure the loader raises
the fatal load error — the failure is not silently swallowed — and if it
reports success the loader returns normally. -/
theorem load_to_snowflake_failure_handling (writeResult : Bool × Nat × Nat) :
    (load_to_snowflake writeResult = Except.ok () ↔ writeResult.1 = true) ∧
    (writeResult.1 = false →
      load_to_snowflake writeResult =
        Except.error "Failed to load data to Snowflake") := by
  rcases writeResult with ⟨s, n, r⟩
  cases s
  · exact ⟨⟨fun h => Except.noConfusion h, fun h => Bool.noConfusion h⟩,
           fun _ => rfl⟩
  · exact ⟨⟨fun _ => rfl, fun _ => rfl⟩, fun h => Bool.noConfusion h⟩

theorem load_to_snowflake_failure_handling_witness :
    load_to_snowflake (false, 0, 0) =
      Except.error "Failed to load data to Snowflake" :=
  (load_to_snowflake_failure_handling (false, 0, 0)).2 rfl

/-! ## Extractor output path (C9) -/

theorem digitChar_inj {a b : Nat} (ha : a < 10) (hb : b < 10)
    (h : digitChar a = digitChar b) : a = b := by
  have hA : (digitChar a).toNat = 48 + a := by interval_cases a <;> rfl
  have hB : (digitChar b).toNat = 48 + b := by interval_cases b <;> rfl
  have h2 := congrArg Char.toNat h
  rw [hA, hB] at h2
  omega

theorem pad2_inj {a b : Nat} (ha : a < 100) (hb : b < 100)
    (h : pad2 a = pad2 b) : a = b := by
  unfold pad2 at h
  simp only [List.cons.injEq, and_true] at h
  obtain ⟨h1, h2⟩ := h
  have e1 := digitChar_inj (by omega) (by omega) h1
  have e2 := digitChar_inj (by omega) (by omega) h2
  omega

theorem pad4_inj {a b : Nat} (ha : a < 10000) (hb : b < 10000)
    (h : pad4 a = pad4 b) : a = b := by
  unfold pad4 at h
  simp only [List.cons.injEq, and_true] at h
  obtain ⟨h1, h2, h3, h4⟩ := h
  have e1 := digitChar_inj (by omega) (by omega) h1
  have e2 := digitChar_inj (by omega) (by omega) h2
  have e3 := digitChar_inj (by omega) (by omega) h3
  have e4 := digitChar_inj (by omega) (by omega) h4
  omega

/-- C9, amended: the extractor's output path is the fixed prefix plus the
run start time rendered at second resolution plus `.csv`; two runs receive
the same path exactly when their start times agree once truncated to whole
seconds (the format drops microseconds). -/
theorem extract_filename_eq_iff (t1 t2 : PyDateTime)
    (h1 : ValidTime t1) (h2 : ValidTime t2) :
    extract_filename t1 = extract_filename t2 ↔
      truncSeconds t1 = truncSeconds t2 := by
  obtain ⟨hy1, hmo1, hd1, hh1, hmi1, hs1, _⟩ := h1
  obtain ⟨hy2, hmo2, hd2, hh2, hmi2, hs2, _⟩ := h2
  constructor
  · intro h
    have hdata := congrArg String.data h
    unfold extract_filename strftimeTimestamp at hdata
    simp only [List.append_assoc] at hdata
    have p0 := (List.append_inj hdata rfl).2
    have py := pad4_inj hy1 hy2 (List.append_inj p0 rfl).1
    have p1 := (List.append_inj p0 rfl).2
    have pmo := pad2_inj hmo1 hmo2 (List.append_inj p1 rfl).1
    have p2 := (List.append_inj p1 rfl).2
    have pd := pad2_inj hd1 hd2 (List.append_inj p2 rfl).1
    have p3 := (List.append_inj p2 rfl).2
    have p4 := (List.append_inj p3 rfl).2
    have ph := pad2_inj hh1 hh2 (List.append_inj p4 rfl).1
    have p5 := (List.append_inj p4 rfl).2
    have pmi := pad2_inj hmi1 hmi2 (List.append_inj p5 rfl).1
    have p6 := (List.append_inj p5 rfl).2
    have ps := pad2_inj hs1 hs2 (List.append_inj p6 rfl).1
    unfold truncSeconds
    rw [py, pmo, pd, ph, pmi, ps]
  · intro h
    unfold truncSeconds at h
    simp only [PyDateTime.mk.injEq, and_true] at h
    obtain ⟨e1, e2, e3, e4, e5, e6⟩ := h
    unfold extract_filename strftimeTimestamp
    rw [e1, e2, e3, e4, e5, e6]

theorem extract_filename_eq_iff_witness :
    (extract_filename ⟨2025, 1, 1, 0, 0, 0, 0⟩ =
        extract_filename ⟨2025, 1, 1, 0, 0, 0, 999999⟩ ↔
      truncSeconds ⟨2025, 1, 1, 0, 0, 0, 0⟩ =
        truncSeconds ⟨2025, 1, 1, 0, 0, 0, 999999⟩) :=
  extract_filename_eq_iff _ _ (by unfold ValidTime; decide)
    (by unfold ValidTime; decide)

/-- C9, counterexample to the claim as stated: two distinct run start times
— here, the same wall-clock second with different microsecond components,
as happens for two concurrent runs — receive the same output path. -/
theorem extract_filename_collision :
    (⟨2025, 10, 12, 3, 4, 5, 0⟩ : PyDateTime) ≠
        ⟨2025, 10, 12, 3, 4, 5, 500000⟩ ∧
      extract_filename ⟨2025, 10, 12, 3, 4, 5, 0⟩ =
        extract_filename ⟨2025, 10, 12, 3, 4, 5, 500000⟩ :=
  ⟨by decide, by decide⟩

/-! ## Dashboard base query with both filters set (C6) -/

/-- C6: with season 2017 and player "LeBron James" selected, the query built
by `build_query` returns only rows with `season_year = 2017` and
`player_name = 'LeBron James'`, and — the season being fixed — consecutive
result rows are in descending points-per-game order. -/
theorem build_query_lebron_2017 (fact : List FactRow) (adv : List AdvRow) :
    (∀ r ∈ runOverviewQuery (some 2017) (some "LeBron James") fact adv,
      r.season_year = 2017 ∧ r.player_name = "LeBron James") ∧
    List.Pairwise (fun x y => y.points_per_game ≤ x.points_per_game)
      (runOverviewQuery (some 2017) (some "LeBron James") fact adv) := by
  have hmem : ∀ r ∈ runOverviewQuery (some 2017) (some "LeBron James") fact adv,
      r.season_year = 2017 ∧ r.player_name = "LeBron James" := by
    intro r hr
    unfold runOverviewQuery at hr
    rw [List.mem_insertionSort] at hr
    have hp := (List.mem_filter.mp hr).2
    unfold passesFilters at hp
    simp only [Bool.and_eq_true, decide_eq_true_eq] at hp
    exact hp
  refine ⟨hmem, ?_⟩
  unfold runOverviewQuery
  refine List.Pairwise.imp_of_mem ?_
    (List.sorted_insertionSort overviewOrder _)
  intro a b ha hb hab
  have hA : a.season_year = 2017 :=
    (hmem a (by unfold runOverviewQuery; exact ha)).1
  have hB : b.season_year = 2017 :=
    (hmem b (by unfold runOverviewQuery; exact hb)).1
  unfold overviewOrder at hab
  rcases hab with hlt | ⟨_, hle⟩
  · rw [hA, hB] at hlt
    exact absurd hlt (lt_irrefl _)
  · exact hle

theorem build_query_lebron_2017_witness :
    (joinRows factLebron (some advLebron)).season_year = 2017 ∧
      (joinRows factLebron (some advLebron)).player_name = "LeBron James" :=
  (build_query_lebron_2017 factTable1 advTable1).1 _ (by decide)

/-! ## Top-performers leaderboard (C7) -/

/-- With advanced-fact keys unique, each basic row contributes exactly one
joined row, matching or not. -/
theorem countMatches_le_one (f : FactRow) {adv : List AdvRow}
    (h : (adv.map advKey).Nodup) :
    (adv.filter (fun a =>
      decide (a.season_year = f.season_year ∧
        a.player_name = f.player_name))).length ≤ 1 := by
  induction adv with
  | nil => simp
  | cons a rest ih =>
    rw [List.map_cons, List.nodup_cons] at h
    obtain ⟨hnot, hrest⟩ := h
    by_cases hc : a.season_year = f.season_year ∧ a.player_name = f.player_name
    · rw [List.filter_cons_of_pos (by simp only [decide_eq_true_eq]; exact hc)]
      have hnil : rest.filter (fun b =>
          decide (b.season_year = f.season_year ∧
            b.player_name = f.player_name)) = [] := by
        rw [List.filter_eq_nil_iff]
        intro b hb hpb
        simp only [decide_eq_true_eq] at hpb
        apply hnot
        rw [List.mem_map]
        refine ⟨b, hb, ?_⟩
        unfold advKey
        rw [hpb.1, hpb.2, hc.1, hc.2]
      rw [hnil]
      simp
    · rw [List.filter_cons_of_neg (by simp only [decide_eq_true_eq]; exact hc)]
      exact ih hrest

/-- The left join preserves the basic-table row count when the advanced
table's keys are unique. -/
theorem leftJoin_length {adv : List AdvRow} (fact : List FactRow)
    (hadv : (adv.map advKey).Nodup) :
    (leftJoin fact adv).length = fact.length := by
  unfold leftJoin
  induction fact with
  | nil => rfl
  | cons f rest ih =>
    rw [List.flatMap_cons, List.length_append, ih, List.length_cons]
    have hle := countMatches_le_one f hadv
    cases hmatch : adv.filter (fun a =>
        decide (a.season_year = f.season_year ∧
          a.player_name = f.player_name)) with
    | nil =>
      simp [Nat.add_comm]
    | cons m ms =>
      rw [hmatch] at hle
      simp only [List.length_cons] at hle
      simp only [List.length_map, List.length_cons]
      omega

/-- C7: the top-performers query returns `min 20 n` rows, where `n` is the
number of distinct player-seasons in the basic fact table (so exactly 20,
or fewer when fewer player-seasons exist), and consecutive rows are in
descending `value_over_replacement_player` order (nulls first, Snowflake's
default for descending sorts). -/
theorem top_performers_query_spec (fact : List FactRow) (adv : List AdvRow)
    (hfact : (fact.map factKey).Nodup) (hadv : (adv.map advKey).Nodup) :
    (topPerformersQuery fact adv).length =
        min 20 ((fact.map factKey).dedup.length) ∧
      List.Pairwise vorpOrder (topPerformersQuery fact adv) := by
  constructor
  · unfold topPerformersQuery
    rw [List.length_take, List.length_insertionSort, List.length_map,
      leftJoin_length fact hadv, List.Nodup.dedup hfact, List.length_map]
  · unfold topPerformersQuery
    exact List.Pairwise.sublist (List.take_sublist _ _)
      (List.sorted_insertionSort vorpOrder _)

theorem top_performers_query_spec_witness :
    (topPerformersQuery factTable1 advTable1).length =
        min 20 ((factTable1.map factKey).dedup.length) ∧
      List.Pairwise vorpOrder (topPerformersQuery factTable1 advTable1) :=
  top_performers_query_spec factTable1 advTable1 (by decide) (by decide)

end NBA
